import Mathlib

/-!
Shallow embedding of the onetun port-forwarding core (SideStore fork),
covering the lifecycle handle, the tunnel entry points, and the TCP/UDP
virtual-interface poll loops, together with theorems checking the
natural-language specification against the code.

Sources embedded: src/lib.rs, src/tunnel/mod.rs, src/virtual_iface/tcp.rs,
src/virtual_iface/udp.rs. External library behaviour (tokio broadcast
channels, smoltcp sockets) is modelled only as far as the embedded code
observes it, and each such modelling choice is recorded in a doc comment.
-/

namespace Onetun

/-- Protocol of a port forward (`config::PortProtocol`). -/
inductive PortProtocol where
  | Tcp
  | Udp
deriving DecidableEq

/-- An IP address, v4 or v6. The numeric payload abstracts the address bits;
the constructor records the family, which is all the embedded code inspects. -/
inductive IpAddr where
  | v4 (a : Nat)
  | v6 (a : Nat)
deriving DecidableEq

/-- A socket address: IP address plus port number. -/
structure SocketAddr where
  ip : IpAddr
  port : Nat
deriving DecidableEq

/-- One configured port forward (`config::PortForwardConfig`):
source endpoint, destination endpoint, protocol. -/
structure PortForwardConfig where
  source : SocketAddr
  destination : SocketAddr
  protocol : PortProtocol
deriving DecidableEq

/-- A virtual port (`virtual_iface::VirtualPort`): a 16-bit number tagged
with its protocol. -/
structure VirtualPort where
  num : Nat
  protocol : PortProtocol
deriving DecidableEq

/-- Bus events (`events::Event`), restricted to the variants the embedded
code produces or consumes. Payload bytes are lists of naturals. -/
inductive Event where
  | ClientConnectionInitiated (pf : PortForwardConfig) (vp : VirtualPort)
  | ClientConnectionDropped (vp : VirtualPort)
  | LocalData (pf : PortForwardConfig) (vp : VirtualPort) (data : List Nat)
  | RemoteData (vp : VirtualPort) (data : List Nat)
  | VirtualDeviceFed (p : PortProtocol)
deriving DecidableEq

/-! ### Association-list helpers

The source keeps `HashMap`s; they are embedded as association lists with
the `HashMap` operations (insert overwrites, remove filters by key). -/

/-- The keys of an association list. -/
def alistKeys (l : List (κ × ν)) : List κ := l.map Prod.fst

/-- Key lookup in an association list. -/
def alistLookup [DecidableEq κ] (l : List (κ × ν)) (k : κ) : Option ν :=
  match l with
  | [] => none
  | (k₀, v₀) :: t => if k₀ = k then some v₀ else alistLookup t k

/-- HashMap-style insert: overwrites any existing binding of the key. -/
def alistInsert [DecidableEq κ] (l : List (κ × ν)) (k : κ) (v : ν) : List (κ × ν) :=
  (k, v) :: l.filter (fun e => decide (e.1 ≠ k))

/-- HashMap-style remove of a key. -/
def alistRemove [DecidableEq κ] (l : List (κ × ν)) (k : κ) : List (κ × ν) :=
  l.filter (fun e => decide (e.1 ≠ k))

/-- Update the value bound to a key in place, leaving other entries alone. -/
def alistUpdate [DecidableEq κ] (l : List (κ × ν)) (k : κ) (f : ν → ν) : List (κ × ν) :=
  l.map (fun e => if e.1 = k then (e.1, f e.2) else e)

/-- Key-membership test, as the `HashMap::contains_key` call. -/
def alistContains [DecidableEq κ] (l : List (κ × ν)) (k : κ) : Bool :=
  l.any (fun e => decide (e.1 = k))

/-! ### Lifecycle handle and `start` (src/lib.rs) -/

/-- Outcome of one call to `Handle::kill`. -/
inductive KillOutcome where
  | returned
  | panicked
deriving DecidableEq

/-- Model of tokio `broadcast::Sender::send`: it returns `Ok(n)` when `n ≥ 1`
receivers are currently subscribed, and `Err(SendError)` when none are. -/
def broadcastSend (receivers : Nat) : Except Unit Nat :=
  if receivers = 0 then Except.error () else Except.ok receivers

/-- `Handle::kill` (lib.rs lines 42 to 44): `self.kill_switch.send(()).unwrap()`.
The `unwrap` of an `Err` is a panic. The argument is the number of live
kill-switch receivers at the moment of the call. -/
def Handle.kill (receivers : Nat) : KillOutcome :=
  match broadcastSend receivers with
  | Except.ok _ => KillOutcome.returned
  | Except.error _ => KillOutcome.panicked

/-- Outcome of a call to `start`. -/
inductive StartOutcome where
  | panicked
  | runsForever
  | returnsErr
deriving DecidableEq

/-- `start` (lib.rs lines 47 to 217). The function returns `()`:
`init_logger(&config).unwrap()` panics on a logger error,
`WireGuardTunnel::new(&config, ...).await...unwrap()` panics when the outer
socket cannot be initialized (initial bind failure), and on success the
function spawns its tasks and then awaits `futures::future::pending()`,
never returning. There is no code path that returns an error value. -/
def start (loggerInitOk : Bool) (wgBindOk : Bool) : StartOutcome :=
  if loggerInitOk = false then StartOutcome.panicked
  else if wgBindOk = false then StartOutcome.panicked
  else StartOutcome.runsForever

/-- Outcome of one spawned per-forward task in `start`. -/
inductive TaskOutcome where
  | finished
  | loggedError
  | panicked
deriving DecidableEq

/-- How `start` treats the result of a spawned `port_forward` or
`remote_port_forward` task (lib.rs lines 165 to 177 and 199 to 211):
`.unwrap_or_else(|e| error!(...))`, i.e. an error is logged and swallowed. -/
def portForwardTaskResult (r : Except Unit Unit) : TaskOutcome :=
  match r with
  | Except.ok _ => TaskOutcome.finished
  | Except.error _ => TaskOutcome.loggedError

/-- The claim of the specification that an initial socket-bind failure
propagates as an error to the caller of `start`. -/
def claimStartBindErrPropagates : Prop :=
  start true false = StartOutcome.returnsErr

/-! ### Select structure of the long-running loops -/

/-- The arms of the `tokio::select!` in each long-running loop. -/
inductive SelectArm where
  | pollTimer
  | busEvent
  | killSwitch
  | mainFuture
deriving DecidableEq

/-- The select arms of the TCP virtual-interface poll loop
(tcp.rs lines 113 to 243): poll timer, bus endpoint, kill switch. -/
def tcpPollLoopSelectArms : List SelectArm :=
  [SelectArm.pollTimer, SelectArm.busEvent, SelectArm.killSwitch]

/-- The select arms of the UDP virtual-interface poll loop
(udp.rs lines 145 to 235): poll timer and bus endpoint only; the loop
subscribes to no kill switch (its `poll_loop` does not even take one). -/
def udpPollLoopSelectArms : List SelectArm :=
  [SelectArm.pollTimer, SelectArm.busEvent]

/-- The select arms of `tunnel::port_forward` (tunnel/mod.rs lines 33 to 52):
the proxy-server future raced against the kill switch. -/
def portForwardSelectArms : List SelectArm :=
  [SelectArm.mainFuture, SelectArm.killSwitch]

/-- The select arms of the UDP branch of `tunnel::remote_port_forward`
(tunnel/mod.rs lines 70 to 78). -/
def remotePortForwardUdpSelectArms : List SelectArm :=
  [SelectArm.mainFuture, SelectArm.killSwitch]

/-- What a loop does upon delivery of the shutdown broadcast. -/
inductive LoopOutcome where
  | keepsRunning
  | returnsOk
deriving DecidableEq

/-- Reaction of the TCP poll loop to the kill broadcast (tcp.rs lines 240
to 242): the kill arm runs `return Ok(())`. -/
def tcpPollLoopOnKill : LoopOutcome := LoopOutcome.returnsOk

/-- Reaction of the UDP poll loop to the kill broadcast: its select has no
kill arm (udp.rs lines 145 to 235), so the broadcast is never observed and
the loop keeps running. -/
def udpPollLoopOnKill : LoopOutcome := LoopOutcome.keepsRunning

/-- Reaction of `port_forward` to the kill broadcast (tunnel/mod.rs lines
37 to 40 and 46 to 49): the kill arm returns `Ok(())`. -/
def portForwardOnKill : LoopOutcome := LoopOutcome.returnsOk

/-! ### `remote_port_forward` (src/tunnel/mod.rs lines 55 to 80) -/

/-- A forwarding action started by a tunnel entry point. -/
inductive ProxyAction where
  | startUdpProxyServer (pf : PortForwardConfig)
deriving DecidableEq

/-- `remote_port_forward`: on `PortProtocol::Tcp` it returns `Ok(())` at
once and starts nothing (the TODO branch); on `PortProtocol::Udp` it runs
`udp_proxy_server` raced against the kill switch, so its result is not
immediate (`none`) and one proxy server is started. The first component is
the immediately-known result, the second the list of started actions. -/
def remote_port_forward (pf : PortForwardConfig) :
    Option (Except Unit Unit) × List ProxyAction :=
  match pf.protocol with
  | PortProtocol.Tcp => (some (Except.ok ()), [])
  | PortProtocol.Udp => (none, [ProxyAction.startUdpProxyServer pf])

/-! ### Per-flow send machinery of the TCP poll loop (tcp.rs lines 143 to 167
and 228 to 232)

For a fixed virtual port, the loop keeps a queue of `LocalData` payloads.
A `LocalData` event appends to the back. On a poll tick where the socket
`can_send`, the head is popped and passed to `send_slice`; smoltcp
enqueues as many bytes as fit in the free transmit space and returns that
count, and a short send pushes the unsent suffix back to the head. (The
`Err` branch of `send_slice` cannot fire: smoltcp only errs on a socket
that may not send, and the call is guarded by `can_send`.) -/

/-- State of one flow: its pending send queue and the bytes already
accepted by `send_slice` into the IP stack, oldest first. -/
structure FlowState where
  queue : List (List Nat)
  delivered : List Nat
deriving DecidableEq

/-- One observable step of a flow: a `LocalData` payload accepted for it,
or one send step of a poll tick with the given free transmit space. -/
inductive FlowOp where
  | localData (data : List Nat)
  | pollSend (txFree : Nat)
deriving DecidableEq

/-- The flow transition: `localData` is the `send_queue.push_back` of the
event handler; `pollSend` is the pop-front, `send_slice`, push-back-suffix
step of the tick. -/
def flowStep (st : FlowState) (op : FlowOp) : FlowState :=
  match op with
  | FlowOp.localData d => { st with queue := st.queue ++ [d] }
  | FlowOp.pollSend f =>
      match st.queue with
      | [] => st
      | d :: rest =>
          let sent := min d.length f
          { queue := if sent < d.length then d.drop sent :: rest else rest,
            delivered := st.delivered ++ d.take sent }

/-- Run a flow trace from the empty state. -/
def flowRun (ops : List FlowOp) : FlowState :=
  ops.foldl flowStep { queue := [], delivered := [] }

/-- The concatenation of all payloads published for the flow, in order. -/
def publishedBytes (ops : List FlowOp) : List Nat :=
  (ops.filterMap (fun op =>
    match op with
    | FlowOp.localData d => some d
    | FlowOp.pollSend _ => none)).flatten

/-! ### TCP virtual interface state (src/virtual_iface/tcp.rs) -/

/-- The smoltcp TCP state enumeration. -/
inductive TcpState where
  | Closed
  | Listen
  | SynSent
  | SynReceived
  | Established
  | FinWait1
  | FinWait2
  | CloseWait
  | Closing
  | LastAck
  | TimeWait
deriving DecidableEq

/-- A smoltcp TCP socket, as far as the embedded code observes it: buffer
capacities, free transmit space, pending receive bytes, state, endpoints. -/
structure TcpSocket where
  rxBufSize : Nat
  txBufSize : Nat
  txFree : Nat
  rxPending : List Nat
  state : TcpState
  localEndpoint : Option (IpAddr × Nat)
  remoteEndpoint : Option (IpAddr × Nat)
deriving DecidableEq

/-- tcp.rs line 16 and udp.rs line 17: `const MAX_PACKET: usize = 65536`. -/
def MAX_PACKET : Nat := 65536

/-- `TcpVirtualInterface::new_client_socket` (tcp.rs lines 57 to 64): a
fresh socket whose RX and TX buffers are `MAX_PACKET` bytes each,
unconnected and closed. The buffer sizes do not depend on the configured
max transmission unit. -/
def TcpVirtualInterface.new_client_socket : TcpSocket :=
  { rxBufSize := MAX_PACKET, txBufSize := MAX_PACKET, txFree := MAX_PACKET,
    rxPending := [], state := TcpState.Closed,
    localEndpoint := none, remoteEndpoint := none }

/-- `TcpVirtualInterface::new_server_socket` (tcp.rs lines 39 to 55):
zero-length buffers, listening on the forward destination. smoltcp
`listen` errs exactly when the port is zero (the socket is fresh, so the
already-open error cannot fire). -/
def TcpVirtualInterface.new_server_socket (pf : PortForwardConfig) :
    Except Unit TcpSocket :=
  if pf.destination.port = 0 then Except.error ()
  else Except.ok
    { rxBufSize := 0, txBufSize := 0, txFree := 0, rxPending := [],
      state := TcpState.Listen,
      localEndpoint := some (pf.destination.ip, pf.destination.port),
      remoteEndpoint := none }

/-- smoltcp `TcpSocket::close`: Listen and SynSent drop to Closed,
SynReceived and Established start the FIN handshake, CloseWait moves to
LastAck, every other state is unchanged. -/
def tcpClose (s : TcpState) : TcpState :=
  match s with
  | TcpState.Listen => TcpState.Closed
  | TcpState.SynSent => TcpState.Closed
  | TcpState.SynReceived => TcpState.FinWait1
  | TcpState.Established => TcpState.FinWait1
  | TcpState.CloseWait => TcpState.LastAck
  | s => s

/-- smoltcp `can_send`: the socket may enqueue data in Established or
CloseWait. -/
def TcpSocket.can_send (s : TcpSocket) : Bool :=
  decide (s.state = TcpState.Established) || decide (s.state = TcpState.CloseWait)

/-- smoltcp `can_recv`: there are pending received bytes to drain. -/
def TcpSocket.can_recv (s : TcpSocket) : Bool :=
  decide (s.rxPending ≠ [])

/-- smoltcp `connect(remote, local)`: errs (Unaddressable) when either port
is zero; otherwise the fresh socket enters SynSent with those endpoints. -/
def tcpConnect (s : TcpSocket) (remote : IpAddr × Nat) (lcl : IpAddr × Nat) :
    Except Unit TcpSocket :=
  if remote.2 = 0 ∨ lcl.2 = 0 then Except.error ()
  else Except.ok
    { s with
      state := TcpState.SynSent,
      remoteEndpoint := some remote, localEndpoint := some lcl }

/-- The mutable state of the TCP poll loop (tcp.rs lines 86 to 110):
the interface socket set keyed by handle, the next fresh handle, the
port-to-handle map, the per-port send queues, the next poll instant
(`none` meaning poll immediately), and the events published so far. -/
structure TcpIfaceState where
  sockets : List (Nat × TcpSocket)
  nextHandle : Nat
  portClientHandleMap : List (VirtualPort × Nat)
  sendQueue : List (VirtualPort × List (List Nat))
  nextPoll : Option Nat
  published : List Event
deriving DecidableEq

/-- The state of the socket behind a handle (`iface.get_socket`); `Closed`
for a stale handle, which never occurs in a reachable state. -/
def socketStateOf (st : TcpIfaceState) (h : Nat) : TcpState :=
  match alistLookup st.sockets h with
  | some s => s.state
  | none => TcpState.Closed

/-- The map entries whose socket is in the Closed state at reap time. -/
def tcpClosedEntries (st : TcpIfaceState) : List (VirtualPort × Nat) :=
  st.portClientHandleMap.filter
    (fun e => decide (socketStateOf st e.2 = TcpState.Closed))

/-- The `ClientConnectionDropped` events published by one reap pass
(tcp.rs lines 122 to 133): one per map entry whose socket is Closed. -/
def tcpReapEvents (st : TcpIfaceState) : List Event :=
  (tcpClosedEntries st).map (fun e => Event.ClientConnectionDropped e.1)

/-- One reap pass (tcp.rs lines 122 to 133): every map entry whose socket
is Closed publishes `ClientConnectionDropped`, loses its send queue, and
has its socket removed from the interface; every other entry is retained
untouched. -/
def tcpReapClosed (st : TcpIfaceState) : TcpIfaceState :=
  { st with
    portClientHandleMap := st.portClientHandleMap.filter
      (fun e => decide (socketStateOf st e.2 ≠ TcpState.Closed)),
    sendQueue := st.sendQueue.filter
      (fun q => !((tcpClosedEntries st).any (fun e => decide (e.1 = q.1)))),
    sockets := st.sockets.filter
      (fun s => !((tcpClosedEntries st).any (fun e => decide (e.2 = s.1)))),
    published := st.published ++ tcpReapEvents st }

/-- The `ClientConnectionInitiated` handler (tcp.rs lines 198 to 220):
add a fresh `new_client_socket` to the interface, record its handle for
the virtual port, register an empty send queue, connect from
`(source_peer_ip, vport.num)` to the forward destination, and force an
immediate next poll. A connect failure propagates out of the loop. -/
def tcpHandleInitiated (sourcePeerIp : IpAddr) (pf : PortForwardConfig)
    (vp : VirtualPort) (st : TcpIfaceState) : Except Unit TcpIfaceState :=
  let handle := st.nextHandle
  let st1 := { st with
    sockets := alistInsert st.sockets handle TcpVirtualInterface.new_client_socket,
    nextHandle := handle + 1,
    portClientHandleMap := alistInsert st.portClientHandleMap vp handle,
    sendQueue := alistInsert st.sendQueue vp [] }
  match tcpConnect TcpVirtualInterface.new_client_socket
      (pf.destination.ip, pf.destination.port) (sourcePeerIp, vp.num) with
  | Except.error e => Except.error e
  | Except.ok connected =>
      Except.ok { st1 with
        sockets := alistInsert st1.sockets handle connected,
        nextPoll := none }

/-- The `ClientConnectionDropped` event handler (tcp.rs lines 221 to 227):
close the registered socket of that port, if any, and force a poll. -/
def tcpHandleDropped (vp : VirtualPort) (st : TcpIfaceState) : TcpIfaceState :=
  match alistLookup st.portClientHandleMap vp with
  | none => st
  | some handle =>
      { st with
        sockets := alistUpdate st.sockets handle
          (fun s => { s with state := tcpClose s.state }),
        nextPoll := none }

/-- The `LocalData` event handler (tcp.rs lines 228 to 233): when a queue
is registered for the port, append the payload and force a poll; otherwise
the event is ignored. -/
def tcpHandleLocalData (vp : VirtualPort) (data : List Nat)
    (st : TcpIfaceState) : TcpIfaceState :=
  if alistContains st.sendQueue vp then
    { st with
      sendQueue := alistUpdate st.sendQueue vp (fun q => q ++ [data]),
      nextPoll := none }
  else st

/-- The `VirtualDeviceFed` event handler (tcp.rs lines 234 to 236): a TCP
feed forces a poll; other protocols are ignored. -/
def tcpHandleFed (p : PortProtocol) (st : TcpIfaceState) : TcpIfaceState :=
  if p = PortProtocol.Tcp then { st with nextPoll := none } else st

/-- The send half of the per-socket tick work (tcp.rs lines 145 to 167),
reached only when the socket `can_send`: pop the queue head and
`send_slice` it, pushing an unsent suffix back to the head; on an empty
queue, close a half-closed (CloseWait) socket. -/
def tcpTickSend (socket : TcpSocket) (q : List (List Nat)) :
    TcpSocket × List (List Nat) :=
  match q with
  | [] =>
      (if socket.state = TcpState.CloseWait then
        { socket with state := tcpClose socket.state }
      else socket, [])
  | d :: rest =>
      let sent := min d.length socket.txFree
      ({ socket with txFree := socket.txFree - sent },
       if sent < d.length then d.drop sent :: rest else rest)

/-- The receive half of the per-socket tick work (tcp.rs lines 169 to 183):
drain the pending bytes and publish them as `RemoteData` unless empty. -/
def tcpTickRecv (vp : VirtualPort) (socket : TcpSocket) :
    TcpSocket × List Event :=
  if socket.can_recv then
    ({ socket with rxPending := [] },
     if socket.rxPending = [] then [] else [Event.RemoteData vp socket.rxPending])
  else (socket, [])

/-- The tick work for one map entry (tcp.rs lines 143 to 184). -/
def tcpTickEntry (st : TcpIfaceState) (e : VirtualPort × Nat) : TcpIfaceState :=
  match alistLookup st.sockets e.2 with
  | none => st
  | some socket =>
      let afterSend :=
        if socket.can_send then
          match alistLookup st.sendQueue e.1 with
          | none => (socket, none)
          | some q =>
              let r := tcpTickSend socket q
              (r.1, some r.2)
        else (socket, none)
      let withQueue :=
        match afterSend.2 with
        | none => st.sendQueue
        | some q1 => alistUpdate st.sendQueue e.1 (fun _ => q1)
      let recvRes := tcpTickRecv e.1 afterSend.1
      { st with
        sockets := alistUpdate st.sockets e.2 (fun _ => recvRes.1),
        sendQueue := withQueue,
        published := st.published ++ recvRes.2 }

/-- The send/receive phase of a poll tick: the per-entry work over every
live map entry. -/
def tcpSendRecvPhase (st : TcpIfaceState) : TcpIfaceState :=
  st.portClientHandleMap.foldl tcpTickEntry st

/-- The effect of `iface.poll` on the socket set: the smoltcp state machine
may rewrite every socket (consume transmit data, deliver receive data, move
TCP states), which the model captures as an arbitrary per-handle function. -/
def tcpStackApply (f : Nat → TcpSocket → TcpSocket) (st : TcpIfaceState) :
    TcpIfaceState :=
  { st with sockets := st.sockets.map (fun p => (p.1, f p.1 p.2)) }

/-- One observable iteration of the TCP poll loop: a timer tick (with
`f` the effect of `iface.poll` on the sockets and `delay` the next-poll
instant the stack reports), or one bus event. -/
inductive TcpLoopStep where
  | pollTick (f : Nat → TcpSocket → TcpSocket) (delay : Option Nat)
  | initiated (pf : PortForwardConfig) (vp : VirtualPort)
  | dropEvent (vp : VirtualPort)
  | localData (pf : PortForwardConfig) (vp : VirtualPort) (data : List Nat)
  | fed (p : PortProtocol)

/-- One iteration of the TCP poll loop (tcp.rs lines 112 to 243): the timer
arm reaps closed sockets, runs `iface.poll` (its effect on the sockets is
the environment function `f`), does the per-socket send/receive work, and
stores the next-poll instant; an event arm runs the matching handler. -/
def tcpLoopStep (sourcePeerIp : IpAddr) (st : TcpIfaceState) :
    TcpLoopStep → Except Unit TcpIfaceState
  | TcpLoopStep.pollTick f delay =>
      let st1 := tcpReapClosed st
      let st2 := tcpStackApply f st1
      let st3 := tcpSendRecvPhase st2
      Except.ok { st3 with nextPoll := delay }
  | TcpLoopStep.initiated pf vp => tcpHandleInitiated sourcePeerIp pf vp st
  | TcpLoopStep.dropEvent vp => Except.ok (tcpHandleDropped vp st)
  | TcpLoopStep.localData _ vp data => Except.ok (tcpHandleLocalData vp data st)
  | TcpLoopStep.fed p => Except.ok (tcpHandleFed p st)

/-- Run the TCP poll loop over a list of iterations; an error from a
handler aborts the loop as the `?` operator does. -/
def tcpLoopRun (sourcePeerIp : IpAddr) (st : TcpIfaceState) :
    List TcpLoopStep → Except Unit TcpIfaceState
  | [] => Except.ok st
  | op :: rest =>
      match tcpLoopStep sourcePeerIp st op with
      | Except.ok st1 => tcpLoopRun sourcePeerIp st1 rest
      | Except.error e => Except.error e

/-- Interface construction before the loop: one server socket per TCP
forward, handles counting up from zero. -/
def tcpIfaceInitAux (pfs : List PortForwardConfig)
    (sockets : List (Nat × TcpSocket)) (next : Nat) :
    Except Unit (List (Nat × TcpSocket) × Nat) :=
  match pfs with
  | [] => Except.ok (sockets, next)
  | pf :: rest =>
      match TcpVirtualInterface.new_server_socket pf with
      | Except.error e => Except.error e
      | Except.ok s => tcpIfaceInitAux rest (alistInsert sockets next s) (next + 1)

/-- The loop state at entry (tcp.rs lines 86 to 110): server sockets for
the TCP forwards (`TcpVirtualInterface::new` keeps only those), empty
port-to-handle map and send-queue map, instant first poll. -/
def tcpIfaceInit (pfs : List PortForwardConfig) : Except Unit TcpIfaceState :=
  match tcpIfaceInitAux
      (pfs.filter (fun f => decide (f.protocol = PortProtocol.Tcp))) [] 0 with
  | Except.error e => Except.error e
  | Except.ok (sockets, next) =>
      Except.ok
        { sockets := sockets, nextHandle := next,
          portClientHandleMap := [], sendQueue := [],
          nextPoll := none, published := [] }

/-- The C10 invariant: the port-to-handle map has no duplicate keys (it is
a `HashMap`) and its key set equals the key set of the send-queue map. -/
def tcpMapsInSync (st : TcpIfaceState) : Prop :=
  (alistKeys st.portClientHandleMap).Nodup ∧
  ∀ vp, vp ∈ alistKeys st.portClientHandleMap ↔ vp ∈ alistKeys st.sendQueue

/-! ### UDP virtual interface state (src/virtual_iface/udp.rs) -/

/-- A smoltcp UDP socket, as far as the embedded code observes it. -/
structure UdpSocket where
  metaSlots : Nat
  rxBufSize : Nat
  txBufSize : Nat
  boundLocal : Option (IpAddr × Nat)
deriving DecidableEq

/-- `UdpVirtualInterface::new_client_socket` (udp.rs lines 70 to 85):
ten metadata slots, `MAX_PACKET`-byte buffers, bound to the given source
IP and the virtual port number. smoltcp `bind` errs exactly when the port
is zero. -/
def UdpVirtualInterface.new_client_socket (sourcePeerIp : IpAddr)
    (clientPort : VirtualPort) : Except Unit UdpSocket :=
  if clientPort.num = 0 then Except.error ()
  else Except.ok
    { metaSlots := 10, rxBufSize := MAX_PACKET, txBufSize := MAX_PACKET,
      boundLocal := some (sourcePeerIp, clientPort.num) }

/-- The mutable state of the UDP poll loop (udp.rs lines 117 to 142). -/
structure UdpIfaceState where
  sockets : List (Nat × UdpSocket)
  nextHandle : Nat
  portClientHandleMap : List (VirtualPort × Nat)
  sendQueue : List (VirtualPort × List (SocketAddr × List Nat))
  nextPoll : Option Nat
  wake : Bool
deriving DecidableEq

/-- The UDP `LocalData` event handler (udp.rs lines 210 to 227): when a
queue exists for the port, append `(forward.destination, bytes)`; otherwise
bind a fresh client socket to `(source_peer_ip, vport)`, register its
handle, and start the queue with that pair; in both cases force an
immediate poll and set the wake flag. A bind failure propagates out of the
loop. -/
def udpHandleLocalData (sourcePeerIp : IpAddr) (pf : PortForwardConfig)
    (vp : VirtualPort) (data : List Nat) (st : UdpIfaceState) :
    Except Unit UdpIfaceState :=
  let destination := pf.destination
  if alistContains st.sendQueue vp then
    Except.ok { st with
      sendQueue := alistUpdate st.sendQueue vp (fun q => q ++ [(destination, data)]),
      nextPoll := none, wake := true }
  else
    match UdpVirtualInterface.new_client_socket sourcePeerIp vp with
    | Except.error e => Except.error e
    | Except.ok socket =>
        Except.ok { st with
          sockets := alistInsert st.sockets st.nextHandle socket,
          nextHandle := st.nextHandle + 1,
          portClientHandleMap := alistInsert st.portClientHandleMap vp st.nextHandle,
          sendQueue := alistInsert st.sendQueue vp [(destination, data)],
          nextPoll := none, wake := true }

/-! ### Installed interface addresses (tcp.rs lines 66 to 76,
udp.rs lines 87 to 97) -/

/-- An address installed on the embedded interface: address plus mask
length, as `IpCidr::new(addr, 32)` builds it. -/
structure IpCidr where
  address : IpAddr
  maskLen : Nat
deriving DecidableEq

/-- `TcpVirtualInterface::addresses`: the source peer IP and every TCP
forward destination IP, deduplicated, each with mask length 32 whatever
the address family. The restriction to TCP forwards is the filter done by
`TcpVirtualInterface::new`. -/
def TcpVirtualInterface.addresses (sourcePeerIp : IpAddr)
    (pfs : List PortForwardConfig) : List IpCidr :=
  ((sourcePeerIp :: (pfs.filter (fun f => decide (f.protocol = PortProtocol.Tcp))).map
    (fun c => c.destination.ip)).dedup).map
    (fun a => { address := a, maskLen := 32 })

/-- `UdpVirtualInterface::addresses`: identical, over the UDP forwards. -/
def UdpVirtualInterface.addresses (sourcePeerIp : IpAddr)
    (pfs : List PortForwardConfig) : List IpCidr :=
  ((sourcePeerIp :: (pfs.filter (fun f => decide (f.protocol = PortProtocol.Udp))).map
    (fun c => c.destination.ip)).dedup).map
    (fun a => { address := a, maskLen := 32 })

/-- The specification's claim about one installed address: a host mask,
32 for a v4 address and 128 for a v6 address. -/
def claimHostMask (cidr : IpCidr) : Prop :=
  match cidr.address with
  | IpAddr.v4 _ => cidr.maskLen = 32
  | IpAddr.v6 _ => cidr.maskLen = 128

/-- The specification's claim quantified over both interfaces. -/
def claimAddressesHostMask : Prop :=
  ∀ sourcePeerIp pfs cidr,
    (cidr ∈ TcpVirtualInterface.addresses sourcePeerIp pfs ∨
     cidr ∈ UdpVirtualInterface.addresses sourcePeerIp pfs) →
    claimHostMask cidr

/-- The specification's claim that the TCP client socket RX and TX buffers
are sized from the configured max transmission unit. -/
def claimClientBuffersMtuSized (mtu : Nat) : Prop :=
  TcpVirtualInterface.new_client_socket.rxBufSize = mtu ∧
  TcpVirtualInterface.new_client_socket.txBufSize = mtu

/-! ### Sample values used to evaluate the theorems on concrete inputs -/

/-- A concrete TCP port forward. -/
def samplePf : PortForwardConfig :=
  { source := { ip := IpAddr.v4 1, port := 8080 },
    destination := { ip := IpAddr.v4 2, port := 80 },
    protocol := PortProtocol.Tcp }

/-- A concrete TCP virtual port. -/
def sampleVp : VirtualPort := { num := 40000, protocol := PortProtocol.Tcp }

/-- An empty TCP interface state. -/
def emptyTcpState : TcpIfaceState :=
  { sockets := [], nextHandle := 0, portClientHandleMap := [],
    sendQueue := [], nextPoll := none, published := [] }

/-- The state produced by the `ClientConnectionInitiated` handler on
`emptyTcpState` with `samplePf` and `sampleVp`, source peer IP 10. -/
def sampleInitiatedResult : TcpIfaceState :=
  { sockets := [(0,
      { rxBufSize := MAX_PACKET, txBufSize := MAX_PACKET, txFree := MAX_PACKET,
        rxPending := [], state := TcpState.SynSent,
        localEndpoint := some (IpAddr.v4 10, 40000),
        remoteEndpoint := some (IpAddr.v4 2, 80) })],
    nextHandle := 1,
    portClientHandleMap := [(sampleVp, 0)],
    sendQueue := [(sampleVp, [])],
    nextPoll := none, published := [] }

/-- A TCP interface state holding one client socket in the Closed state. -/
def sampleClosedState : TcpIfaceState :=
  { sockets := [(0, TcpVirtualInterface.new_client_socket)],
    nextHandle := 1,
    portClientHandleMap := [(sampleVp, 0)],
    sendQueue := [(sampleVp, [])],
    nextPoll := none, published := [] }

/-- An empty UDP interface state. -/
def emptyUdpState : UdpIfaceState :=
  { sockets := [], nextHandle := 0, portClientHandleMap := [],
    sendQueue := [], nextPoll := none, wake := false }

/-- A concrete UDP port forward. -/
def sampleUdpPf : PortForwardConfig :=
  { source := { ip := IpAddr.v4 1, port := 5353 },
    destination := { ip := IpAddr.v4 2, port := 53 },
    protocol := PortProtocol.Udp }

/-- A concrete UDP virtual port. -/
def sampleUdpVp : VirtualPort := { num := 40000, protocol := PortProtocol.Udp }

/-- The state produced by the UDP `LocalData` handler on `emptyUdpState`
with `sampleUdpPf`, `sampleUdpVp` and payload `[1, 2, 3]`, source peer
IP 10. -/
def sampleUdpResult : UdpIfaceState :=
  { sockets := [(0,
      { metaSlots := 10, rxBufSize := MAX_PACKET, txBufSize := MAX_PACKET,
        boundLocal := some (IpAddr.v4 10, 40000) })],
    nextHandle := 1,
    portClientHandleMap := [(sampleUdpVp, 0)],
    sendQueue := [(sampleUdpVp, [(sampleUdpPf.destination, [1, 2, 3])])],
    nextPoll := none, wake := true }

end Onetun

namespace Onetun

/-- A key is in the key list exactly when some pair with that key is in
the association list. -/
theorem mem_alistKeys {κ ν : Type} (l : List (κ × ν)) (k : κ) :
    k ∈ alistKeys l ↔ ∃ v, (k, v) ∈ l := by
  constructor
  · intro h
    rcases List.mem_map.mp h with ⟨⟨a, b⟩, he, hk⟩
    cases hk
    exact ⟨b, he⟩
  · rintro ⟨v, hv⟩
    exact List.mem_map.mpr ⟨(k, v), hv, rfl⟩

/-- Key membership after a filter. -/
theorem mem_alistKeys_filter {κ ν : Type} (l : List (κ × ν)) (p : κ × ν → Bool) (k : κ) :
    k ∈ alistKeys (l.filter p) ↔ ∃ v, (k, v) ∈ l ∧ p (k, v) = true := by
  rw [mem_alistKeys]
  constructor
  · rintro ⟨v, hv⟩
    rcases List.mem_filter.mp hv with ⟨h1, h2⟩
    exact ⟨v, h1, h2⟩
  · rintro ⟨v, h1, h2⟩
    exact ⟨v, List.mem_filter.mpr ⟨h1, h2⟩⟩

/-- Key membership after a HashMap-style insert. -/
theorem mem_alistKeys_alistInsert {κ ν : Type} [DecidableEq κ]
    (l : List (κ × ν)) (k k₀ : κ) (v : ν) :
    k₀ ∈ alistKeys (alistInsert l k v) ↔ k₀ = k ∨ k₀ ∈ alistKeys l := by
  show k₀ ∈ alistKeys ((k, v) :: l.filter (fun e => decide (e.1 ≠ k))) ↔ _
  rw [show alistKeys ((k, v) :: l.filter (fun e => decide (e.1 ≠ k))) =
      k :: alistKeys (l.filter (fun e => decide (e.1 ≠ k))) from rfl,
    List.mem_cons]
  rcases eq_or_ne k₀ k with h | h
  · subst h
    simp
  · constructor
    · intro hc
      rcases hc with hc | hc
      · exact absurd hc h
      · rcases (mem_alistKeys_filter l _ k₀).mp hc with ⟨v₀, hv₀, _⟩
        exact Or.inr ((mem_alistKeys l k₀).mpr ⟨v₀, hv₀⟩)
    · intro hc
      rcases hc with hc | hc
      · exact absurd hc h
      · rcases (mem_alistKeys l k₀).mp hc with ⟨v₀, hv₀⟩
        exact Or.inr ((mem_alistKeys_filter l _ k₀).mpr ⟨v₀, hv₀, by simpa using h⟩)

/-- Filtering cannot create duplicate keys. -/
theorem nodup_alistKeys_filter {κ ν : Type} (l : List (κ × ν)) (p : κ × ν → Bool)
    (h : (alistKeys l).Nodup) : (alistKeys (l.filter p)).Nodup :=
  List.Nodup.sublist (List.Sublist.map Prod.fst (List.filter_sublist l)) h

/-- A HashMap-style insert keeps the keys duplicate-free. -/
theorem nodup_alistKeys_alistInsert {κ ν : Type} [DecidableEq κ]
    (l : List (κ × ν)) (k : κ) (v : ν)
    (h : (alistKeys l).Nodup) : (alistKeys (alistInsert l k v)).Nodup := by
  show (k :: alistKeys (l.filter (fun e => decide (e.1 ≠ k)))).Nodup
  refine List.nodup_cons.mpr ⟨?_, nodup_alistKeys_filter l _ h⟩
  intro hmem
  rcases (mem_alistKeys_filter l _ k).mp hmem with ⟨v₀, _, hp⟩
  simp at hp

/-- In a list with duplicate-free keys, two members with the same key are
the same entry. -/
theorem nodup_keys_entry_eq {κ ν : Type} {l : List (κ × ν)}
    (h : (alistKeys l).Nodup) {a b : κ × ν}
    (ha : a ∈ l) (hb : b ∈ l) (hab : a.1 = b.1) : a = b := by
  induction l with
  | nil => cases ha
  | cons e t ih =>
      have hkeys : e.1 ∉ alistKeys t ∧ (alistKeys t).Nodup :=
        List.nodup_cons.mp h
      rcases List.mem_cons.mp ha with ha1 | ha1 <;>
        rcases List.mem_cons.mp hb with hb1 | hb1
      · rw [ha1, hb1]
      · subst ha1
        have : b.1 ∈ alistKeys t := List.mem_map_of_mem Prod.fst hb1
        exact absurd (hab ▸ this) hkeys.1
      · subst hb1
        have : a.1 ∈ alistKeys t := List.mem_map_of_mem Prod.fst ha1
        exact absurd (hab ▸ this) hkeys.1
      · exact ih hkeys.2 ha1 hb1

/-- Updating a value in place keeps the key list unchanged. -/
theorem alistKeys_alistUpdate {κ ν : Type} [DecidableEq κ]
    (l : List (κ × ν)) (k : κ) (f : ν → ν) :
    alistKeys (alistUpdate l k f) = alistKeys l := by
  induction l with
  | nil => rfl
  | cons a t ih =>
      have h1 : (if a.1 = k then (a.1, f a.2) else a).1 = a.1 := by
        by_cases h : a.1 = k <;> simp [h]
      show (if a.1 = k then (a.1, f a.2) else a).1 ::
          alistKeys (alistUpdate t k f) = a.1 :: alistKeys t
      rw [h1, ih]

/-- Lookup after a HashMap-style insert of the same key. -/
theorem alistLookup_alistInsert_self {κ ν : Type} [DecidableEq κ]
    (l : List (κ × ν)) (k : κ) (v : ν) :
    alistLookup (alistInsert l k v) k = some v := by
  simp [alistInsert, alistLookup]

/-- Lookup after an in-place update of the same key. -/
theorem alistLookup_alistUpdate_self {κ ν : Type} [DecidableEq κ]
    (l : List (κ × ν)) (k : κ) (f : ν → ν) :
    alistLookup (alistUpdate l k f) k = (alistLookup l k).map f := by
  induction l with
  | nil => rfl
  | cons a t ih =>
      by_cases h : a.1 = k
      · show alistLookup ((if a.1 = k then (a.1, f a.2) else a) :: alistUpdate t k f) k = _
        rw [if_pos h]
        show (if a.1 = k then some (f a.2) else alistLookup (alistUpdate t k f) k) = _
        rw [if_pos h]
        have : alistLookup (a :: t) k = some a.2 := by
          show (if a.1 = k then some a.2 else alistLookup t k) = _
          rw [if_pos h]
        rw [this]
        rfl
      · show alistLookup ((if a.1 = k then (a.1, f a.2) else a) :: alistUpdate t k f) k = _
        rw [if_neg h]
        show (if a.1 = k then some a.2 else alistLookup (alistUpdate t k f) k) = _
        rw [if_neg h, ih]
        have : alistLookup (a :: t) k = alistLookup t k := by
          show (if a.1 = k then some a.2 else alistLookup t k) = _
          rw [if_neg h]
        rw [this]

/-- The membership test agrees with lookup. -/
theorem alistContains_eq_isSome {κ ν : Type} [DecidableEq κ]
    (l : List (κ × ν)) (k : κ) :
    alistContains l k = (alistLookup l k).isSome := by
  induction l with
  | nil => rfl
  | cons a t ih =>
      by_cases h : a.1 = k
      · simp [alistContains, alistLookup, h]
      · simp only [alistContains, List.any_cons, alistLookup, if_neg h]
        simp only [alistContains] at ih
        simp [h, ih]

/-- Helper for C5: one flow step conserves bytes and their order. -/
theorem flowStep_conserves (st : FlowState) (op : FlowOp) :
    (flowStep st op).delivered ++ (flowStep st op).queue.flatten =
      st.delivered ++ st.queue.flatten ++
        (match op with
         | FlowOp.localData d => d
         | FlowOp.pollSend _ => []) := by
  cases op with
  | localData d => simp [flowStep]
  | pollSend f =>
      cases hq : st.queue with
      | nil => simp [flowStep, hq]
      | cons d rest =>
          by_cases hlt : min d.length f < d.length
          · simp only [flowStep, hq, if_pos hlt, List.flatten, List.append_nil,
              List.append_assoc]
            congr 1
            rw [← List.append_assoc, List.take_append_drop]
          · have hmin : min d.length f = d.length :=
              Nat.le_antisymm (Nat.min_le_left _ _) (Nat.le_of_not_lt hlt)
            simp [flowStep, hq, if_neg hlt, hmin, List.append_assoc]

/-- Helper for C5: the invariant over a whole trace, generalized start. -/
theorem flowFold_conserves (ops : List FlowOp) (st : FlowState) :
    (ops.foldl flowStep st).delivered ++ (ops.foldl flowStep st).queue.flatten =
      st.delivered ++ st.queue.flatten ++ publishedBytes ops := by
  induction ops generalizing st with
  | nil => simp [publishedBytes]
  | cons op rest ih =>
      have h1 := flowStep_conserves st op
      calc ((op :: rest).foldl flowStep st).delivered ++
              ((op :: rest).foldl flowStep st).queue.flatten
          = (flowStep st op).delivered ++ (flowStep st op).queue.flatten ++
              publishedBytes rest := by
            simpa using ih (flowStep st op)
        _ = st.delivered ++ st.queue.flatten ++ publishedBytes (op :: rest) := by
            rw [h1]
            cases op with
            | localData d => simp [publishedBytes, List.append_assoc]
            | pollSend f => simp [publishedBytes]

/-- C5: over any interleaving of accepted `LocalData` events and poll-tick
send steps, the bytes delivered to the IP stack followed by the bytes still
queued are exactly the published payload bytes in publication order: no
byte is lost, duplicated, or reordered, and a short `send_slice` resumes
from the unsent suffix. -/
theorem C5_send_queue_preserves_byte_stream (ops : List FlowOp) :
    (flowRun ops).delivered ++ (flowRun ops).queue.flatten = publishedBytes ops := by
  simpa [flowRun] using flowFold_conserves ops { queue := [], delivered := [] }

/-- C1: the UDP virtual-interface poll loop ignores the shutdown broadcast,
while the TCP poll loop and the port-forward tasks return Ok on it. -/
theorem C1_udp_poll_loop_ignores_kill :
    SelectArm.killSwitch ∈ tcpPollLoopSelectArms ∧
    tcpPollLoopOnKill = LoopOutcome.returnsOk ∧
    SelectArm.killSwitch ∈ portForwardSelectArms ∧
    portForwardOnKill = LoopOutcome.returnsOk ∧
    SelectArm.killSwitch ∉ udpPollLoopSelectArms ∧
    udpPollLoopOnKill ≠ LoopOutcome.returnsOk := by
  refine ⟨by decide, rfl, by decide, rfl, by decide, by decide⟩

/-- C2: a second `kill()` issued after every subscribed task has drained and
returned (zero live receivers) panics, because `kill_switch.send(()).unwrap()`
unwraps the `SendError` of a receiverless broadcast; a `kill()` with at
least one live receiver returns normally. -/
theorem C2_second_kill_panics :
    Handle.kill 0 = KillOutcome.panicked ∧
    Handle.kill 1 = KillOutcome.returned ∧
    Handle.kill 0 ≠ KillOutcome.returned := by
  refine ⟨rfl, rfl, by decide⟩

/-- C3 counterexample: an initial socket-bind failure does not propagate as
an error to the caller of `start`; `start` panics on it instead. -/
theorem C3_counterexample_bind_failure_panics :
    start true false = StartOutcome.panicked ∧ ¬ claimStartBindErrPropagates := by
  refine ⟨rfl, ?_⟩
  intro h
  simp [claimStartBindErrPropagates, start] at h

/-- C3 amended: `start` never returns an error value to its caller; a
logger-initialization failure or an initial tunnel-socket bind failure is a
panic inside `start`, a successful startup runs forever, and a failed
per-forward task is logged rather than propagated or turned into a panic. -/
theorem C3_start_error_surfacing :
    (∀ l w, start l w ≠ StartOutcome.returnsErr) ∧
    start false true = StartOutcome.panicked ∧
    start true false = StartOutcome.panicked ∧
    start true true = StartOutcome.runsForever ∧
    (∀ r, portForwardTaskResult r ≠ TaskOutcome.panicked) := by
  refine ⟨by decide, rfl, rfl, rfl, ?_⟩
  intro r
  cases r <;> simp [portForwardTaskResult]

/-- C4: a remote-initiated TCP forward returns success immediately and
starts nothing; every started proxy action belongs to a UDP forward. -/
theorem C4_remote_tcp_forward_is_noop :
    (∀ pf : PortForwardConfig, pf.protocol = PortProtocol.Tcp →
      remote_port_forward pf = (some (Except.ok ()), [])) ∧
    (∀ pf : PortForwardConfig, (remote_port_forward pf).2 ≠ [] →
      pf.protocol = PortProtocol.Udp) := by
  constructor
  · intro pf h
    simp [remote_port_forward, h]
  · intro pf h
    cases hp : pf.protocol with
    | Tcp => simp [remote_port_forward, hp] at h
    | Udp => rfl

/-- C4 witness: evaluated on a concrete TCP remote forward. -/
theorem C4_remote_tcp_forward_is_noop_witness :
    remote_port_forward
      ⟨⟨IpAddr.v4 1, 8080⟩, ⟨IpAddr.v4 2, 80⟩, PortProtocol.Tcp⟩ =
      (some (Except.ok ()), []) :=
  C4_remote_tcp_forward_is_noop.1
    ⟨⟨IpAddr.v4 1, 8080⟩, ⟨IpAddr.v4 2, 80⟩, PortProtocol.Tcp⟩ rfl

/-- The per-entry tick work never touches the port-to-handle map. -/
theorem tcpTickEntry_map_eq (st : TcpIfaceState) (e : VirtualPort × Nat) :
    (tcpTickEntry st e).portClientHandleMap = st.portClientHandleMap := by
  unfold tcpTickEntry
  cases alistLookup st.sockets e.2 <;> rfl

/-- The per-entry tick work never changes the send-queue key set. -/
theorem tcpTickEntry_queue_keys (st : TcpIfaceState) (e : VirtualPort × Nat) :
    alistKeys (tcpTickEntry st e).sendQueue = alistKeys st.sendQueue := by
  unfold tcpTickEntry
  rcases hl : alistLookup st.sockets e.2 with _ | socket
  · rfl
  · cases hs : socket.can_send
    · simp [hs]
    · rcases hq : alistLookup st.sendQueue e.1 with _ | q
      · simp [hs, hq]
      · simp [hs, hq, alistKeys_alistUpdate]

/-- The whole send/receive phase keeps the map and the queue keys. -/
theorem tcpSendRecvPhase_keys (entries : List (VirtualPort × Nat))
    (st : TcpIfaceState) :
    (entries.foldl tcpTickEntry st).portClientHandleMap = st.portClientHandleMap ∧
    alistKeys (entries.foldl tcpTickEntry st).sendQueue = alistKeys st.sendQueue := by
  induction entries generalizing st with
  | nil => exact ⟨rfl, rfl⟩
  | cons e t ih =>
      rcases ih (tcpTickEntry st e) with ⟨h1, h2⟩
      refine ⟨?_, ?_⟩
      · rw [List.foldl_cons, h1, tcpTickEntry_map_eq]
      · rw [List.foldl_cons, h2, tcpTickEntry_queue_keys]

/-- Transport of the C10 invariant along equal map and queue keys. -/
theorem tcpMapsInSync_of_eq {st st₁ : TcpIfaceState}
    (h : tcpMapsInSync st)
    (hm : st₁.portClientHandleMap = st.portClientHandleMap)
    (hq : alistKeys st₁.sendQueue = alistKeys st.sendQueue) :
    tcpMapsInSync st₁ := by
  rcases h with ⟨hn, hs⟩
  constructor
  · rw [hm]
    exact hn
  · intro vp
    rw [hm, hq]
    exact hs vp

/-- The reap pass preserves the C10 invariant. -/
theorem tcpReapClosed_preserves_sync (st : TcpIfaceState)
    (h : tcpMapsInSync st) : tcpMapsInSync (tcpReapClosed st) := by
  rcases h with ⟨hnodup, hsync⟩
  constructor
  · exact nodup_alistKeys_filter _ _ hnodup
  · intro vp
    constructor
    · intro hvp
      rcases (mem_alistKeys_filter _ _ vp).mp hvp with ⟨hd, hmem, hp⟩
      have hnotclosed : socketStateOf st hd ≠ TcpState.Closed := by
        simpa using hp
      have hvq : vp ∈ alistKeys st.sendQueue :=
        (hsync vp).mp ((mem_alistKeys _ _).mpr ⟨hd, hmem⟩)
      rcases (mem_alistKeys _ _).mp hvq with ⟨qv, hqv⟩
      refine (mem_alistKeys_filter _ _ vp).mpr ⟨qv, hqv, ?_⟩
      have hnone : ∀ ce ∈ tcpClosedEntries st, ¬ (ce.1 = vp) := by
        intro ce hce hkey
        rcases List.mem_filter.mp hce with ⟨hcem, hcep⟩
        have hceclosed : socketStateOf st ce.2 = TcpState.Closed := by
          simpa using hcep
        have : ce = (vp, hd) :=
          nodup_keys_entry_eq hnodup hcem hmem (by simpa using hkey)
        rw [this] at hceclosed
        exact hnotclosed hceclosed
      simp only [Bool.not_eq_true']
      rw [List.any_eq_false]
      intro ce hce
      simpa using hnone ce hce
    · intro hvq
      rcases (mem_alistKeys_filter _ _ vp).mp hvq with ⟨qv, hqv, hp⟩
      have hnoclosed : ∀ ce ∈ tcpClosedEntries st, ¬ (ce.1 = vp) := by
        simp only [Bool.not_eq_true'] at hp
        rw [List.any_eq_false] at hp
        intro ce hce
        simpa using hp ce hce
      have hvm : vp ∈ alistKeys st.portClientHandleMap :=
        (hsync vp).mpr ((mem_alistKeys _ _).mpr ⟨qv, hqv⟩)
      rcases (mem_alistKeys _ _).mp hvm with ⟨hd, hmem⟩
      have hnotclosed : socketStateOf st hd ≠ TcpState.Closed := by
        intro hclosed
        exact hnoclosed (vp, hd)
          (List.mem_filter.mpr ⟨hmem, by simpa using hclosed⟩) rfl
      exact (mem_alistKeys_filter _ _ vp).mpr ⟨hd, hmem, by simpa using hnotclosed⟩

/-- The shape of a successful `ClientConnectionInitiated` handler run. -/
theorem tcpHandleInitiated_ok {spi : IpAddr} {pf : PortForwardConfig}
    {vp : VirtualPort} {st st₁ : TcpIfaceState}
    (hok : tcpHandleInitiated spi pf vp st = Except.ok st₁) :
    st₁ = { st with
      sockets := alistInsert
        (alistInsert st.sockets st.nextHandle TcpVirtualInterface.new_client_socket)
        st.nextHandle
        { TcpVirtualInterface.new_client_socket with
          state := TcpState.SynSent,
          remoteEndpoint := some (pf.destination.ip, pf.destination.port),
          localEndpoint := some (spi, vp.num) },
      nextHandle := st.nextHandle + 1,
      portClientHandleMap := alistInsert st.portClientHandleMap vp st.nextHandle,
      sendQueue := alistInsert st.sendQueue vp [],
      nextPoll := none } := by
  unfold tcpHandleInitiated tcpConnect at hok
  by_cases hz : pf.destination.port = 0 ∨ vp.num = 0
  · rw [if_pos hz] at hok
    cases hok
  · rw [if_neg hz] at hok
    injection hok with hok
    rw [← hok]

/-- The `ClientConnectionDropped` event handler touches neither map. -/
theorem tcpHandleDropped_fields (vp : VirtualPort) (st : TcpIfaceState) :
    (tcpHandleDropped vp st).portClientHandleMap = st.portClientHandleMap ∧
    (tcpHandleDropped vp st).sendQueue = st.sendQueue := by
  unfold tcpHandleDropped
  cases alistLookup st.portClientHandleMap vp <;> exact ⟨rfl, rfl⟩

/-- The `LocalData` event handler keeps the map and the queue keys. -/
theorem tcpHandleLocalData_fields (vp : VirtualPort) (data : List Nat)
    (st : TcpIfaceState) :
    (tcpHandleLocalData vp data st).portClientHandleMap = st.portClientHandleMap ∧
    alistKeys (tcpHandleLocalData vp data st).sendQueue = alistKeys st.sendQueue := by
  unfold tcpHandleLocalData
  cases h : alistContains st.sendQueue vp <;>
    simp [h, alistKeys_alistUpdate]

/-- Every loop iteration preserves the C10 invariant. -/
theorem tcpLoopStep_preserves_sync (spi : IpAddr) (st : TcpIfaceState)
    (op : TcpLoopStep) (st₁ : TcpIfaceState) (h : tcpMapsInSync st)
    (hok : tcpLoopStep spi st op = Except.ok st₁) : tcpMapsInSync st₁ := by
  cases op with
  | pollTick f delay =>
      injection hok with hok
      rw [← hok]
      have h1 : tcpMapsInSync (tcpReapClosed st) :=
        tcpReapClosed_preserves_sync st h
      have h2 : tcpMapsInSync (tcpStackApply f (tcpReapClosed st)) :=
        tcpMapsInSync_of_eq h1 rfl rfl
      rcases tcpSendRecvPhase_keys
        (tcpStackApply f (tcpReapClosed st)).portClientHandleMap
        (tcpStackApply f (tcpReapClosed st)) with ⟨e1, e2⟩
      exact tcpMapsInSync_of_eq (tcpMapsInSync_of_eq h2 e1 e2) rfl rfl
  | initiated pf vp =>
      rw [tcpHandleInitiated_ok hok]
      rcases h with ⟨hn, hs⟩
      constructor
      · exact nodup_alistKeys_alistInsert _ _ _ hn
      · intro v
        rw [show ({ st with
            sockets := alistInsert
              (alistInsert st.sockets st.nextHandle TcpVirtualInterface.new_client_socket)
              st.nextHandle
              { TcpVirtualInterface.new_client_socket with
                state := TcpState.SynSent,
                remoteEndpoint := some (pf.destination.ip, pf.destination.port),
                localEndpoint := some (spi, vp.num) },
            nextHandle := st.nextHandle + 1,
            portClientHandleMap := alistInsert st.portClientHandleMap vp st.nextHandle,
            sendQueue := alistInsert st.sendQueue vp [],
            nextPoll := none } : TcpIfaceState).portClientHandleMap =
          alistInsert st.portClientHandleMap vp st.nextHandle from rfl]
        rw [mem_alistKeys_alistInsert, mem_alistKeys_alistInsert]
        exact or_congr Iff.rfl (hs v)
  | dropEvent vp =>
      injection hok with hok
      rw [← hok]
      rcases tcpHandleDropped_fields vp st with ⟨h1, h2⟩
      exact tcpMapsInSync_of_eq h h1 (by rw [h2])
  | localData pf vp data =>
      injection hok with hok
      rw [← hok]
      rcases tcpHandleLocalData_fields vp data st with ⟨h1, h2⟩
      exact tcpMapsInSync_of_eq h h1 h2
  | fed p =>
      injection hok with hok
      rw [← hok]
      unfold tcpHandleFed
      by_cases hp : p = PortProtocol.Tcp
      · rw [if_pos hp]
        exact tcpMapsInSync_of_eq h rfl rfl
      · rw [if_neg hp]
        exact h

/-- Running the loop preserves the C10 invariant. -/
theorem tcpLoopRun_preserves_sync (spi : IpAddr) (ops : List TcpLoopStep) :
    ∀ st st₁ : TcpIfaceState, tcpMapsInSync st →
      tcpLoopRun spi st ops = Except.ok st₁ → tcpMapsInSync st₁ := by
  induction ops with
  | nil =>
      intro st st₁ h hok
      injection hok with hok
      rw [← hok]
      exact h
  | cons op rest ih =>
      intro st st₁ h hok
      unfold tcpLoopRun at hok
      rcases hs : tcpLoopStep spi st op with e | stm
      · rw [hs] at hok
        cases hok
      · rw [hs] at hok
        exact ih stm st₁ (tcpLoopStep_preserves_sync spi st op stm h hs) hok

/-- The initial loop state satisfies the C10 invariant. -/
theorem tcpIfaceInit_sync (pfs : List PortForwardConfig) (st₀ : TcpIfaceState)
    (h : tcpIfaceInit pfs = Except.ok st₀) : tcpMapsInSync st₀ := by
  unfold tcpIfaceInit at h
  rcases haux : tcpIfaceInitAux
      (pfs.filter (fun f => decide (f.protocol = PortProtocol.Tcp))) [] 0
      with e | p
  · rw [haux] at h
    cases h
  · obtain ⟨socks, nxt⟩ := p
    rw [haux] at h
    injection h with h
    rw [← h]
    exact ⟨List.nodup_nil, fun vp => Iff.rfl⟩

/-- C10: at every reachable loop iteration the virtual ports registered in
the port-to-socket-handle map are exactly those with a registered send
queue; every loop step (connection initiation, reaping, events, poll
ticks) preserves this, and it holds at loop entry. -/
theorem C10_handle_map_and_send_queue_in_sync :
    (∀ (spi : IpAddr) (st : TcpIfaceState) (op : TcpLoopStep)
       (st₁ : TcpIfaceState), tcpMapsInSync st →
       tcpLoopStep spi st op = Except.ok st₁ → tcpMapsInSync st₁) ∧
    (∀ (pfs : List PortForwardConfig) (st₀ : TcpIfaceState),
       tcpIfaceInit pfs = Except.ok st₀ → tcpMapsInSync st₀) ∧
    (∀ (spi : IpAddr) (pfs : List PortForwardConfig) (st₀ : TcpIfaceState)
       (ops : List TcpLoopStep) (st : TcpIfaceState),
       tcpIfaceInit pfs = Except.ok st₀ →
       tcpLoopRun spi st₀ ops = Except.ok st → tcpMapsInSync st) := by
  refine ⟨tcpLoopStep_preserves_sync, tcpIfaceInit_sync, ?_⟩
  intro spi pfs st₀ ops st h0 hrun
  exact tcpLoopRun_preserves_sync spi ops st₀ st (tcpIfaceInit_sync pfs st₀ h0) hrun

/-- C10 witness: the invariant established through the loop on a concrete
empty configuration. -/
theorem C10_handle_map_and_send_queue_in_sync_witness :
    tcpMapsInSync emptyTcpState :=
  C10_handle_map_and_send_queue_in_sync.2.2 (IpAddr.v4 0) [] emptyTcpState []
    emptyTcpState rfl rfl

/-- C6: on a reap pass, every map entry whose socket is Closed gets a
`ClientConnectionDropped` published for its port, loses its send queue, and
has both the map entry and the interface socket removed; an entry whose
socket is not Closed is retained; and a drop event is emitted exactly for
the ports with a Closed socket. -/
theorem C6_reap_exactly_closed_sockets (st : TcpIfaceState) (vp : VirtualPort)
    (hd : Nat) :
    ((vp, hd) ∈ st.portClientHandleMap → socketStateOf st hd = TcpState.Closed →
      (Event.ClientConnectionDropped vp ∈ tcpReapEvents st ∧
       Event.ClientConnectionDropped vp ∈ (tcpReapClosed st).published ∧
       vp ∉ alistKeys (tcpReapClosed st).sendQueue ∧
       (vp, hd) ∉ (tcpReapClosed st).portClientHandleMap ∧
       hd ∉ alistKeys (tcpReapClosed st).sockets)) ∧
    ((vp, hd) ∈ st.portClientHandleMap → socketStateOf st hd ≠ TcpState.Closed →
      (vp, hd) ∈ (tcpReapClosed st).portClientHandleMap) ∧
    (Event.ClientConnectionDropped vp ∈ tcpReapEvents st ↔
      ∃ h₀, (vp, h₀) ∈ st.portClientHandleMap ∧
        socketStateOf st h₀ = TcpState.Closed) := by
  refine ⟨?_, ?_, ?_⟩
  · intro hmem hclosed
    have hce : (vp, hd) ∈ tcpClosedEntries st :=
      List.mem_filter.mpr ⟨hmem, by simpa using hclosed⟩
    refine ⟨?_, ?_, ?_, ?_, ?_⟩
    · exact List.mem_map.mpr ⟨(vp, hd), hce, rfl⟩
    · exact List.mem_append.mpr
        (Or.inr (List.mem_map.mpr ⟨(vp, hd), hce, rfl⟩))
    · intro hq
      rcases (mem_alistKeys_filter _ _ vp).mp hq with ⟨qv, _, hp⟩
      simp only [Bool.not_eq_true'] at hp
      rw [List.any_eq_false] at hp
      have hcontr := hp (vp, hd) hce
      simp at hcontr
    · intro hm
      rcases List.mem_filter.mp hm with ⟨_, hp⟩
      exact absurd hclosed (by simpa using hp)
    · intro hsock
      rcases (mem_alistKeys_filter _ _ hd).mp hsock with ⟨sv, _, hp⟩
      simp only [Bool.not_eq_true'] at hp
      rw [List.any_eq_false] at hp
      have hcontr := hp (vp, hd) hce
      simp at hcontr
  · intro hmem hopen
    exact List.mem_filter.mpr ⟨hmem, by simpa using hopen⟩
  · constructor
    · intro hev
      rcases List.mem_map.mp hev with ⟨ce, hce, hek⟩
      rcases List.mem_filter.mp hce with ⟨hcem, hcep⟩
      have hkey : ce.1 = vp := by
        cases hek
        rfl
      refine ⟨ce.2, ?_, by simpa using hcep⟩
      rw [show (vp, ce.2) = ce from by rw [← hkey]]
      exact hcem
    · rintro ⟨h₀, hmem, hclosed⟩
      exact List.mem_map.mpr
        ⟨(vp, h₀), List.mem_filter.mpr ⟨hmem, by simpa using hclosed⟩, rfl⟩

/-- C6 witness: a concrete state with one Closed client socket. -/
theorem C6_reap_exactly_closed_sockets_witness :
    Event.ClientConnectionDropped sampleVp ∈ tcpReapEvents sampleClosedState ∧
    sampleVp ∉ alistKeys (tcpReapClosed sampleClosedState).sendQueue :=
  ⟨((C6_reap_exactly_closed_sockets sampleClosedState sampleVp 0).1
      (by decide) rfl).1,
   ((C6_reap_exactly_closed_sockets sampleClosedState sampleVp 0).1
      (by decide) rfl).2.2.1⟩

/-- C7 counterexample: the client socket RX and TX buffers are the fixed
`MAX_PACKET` = 65536 bytes, not sized from the configured max transmission
unit: at the default MTU of 1420 the claim fails (and 65536 exceeds every
legal MTU, which is at most 65535). -/
theorem C7_counterexample_buffers_not_mtu_sized :
    TcpVirtualInterface.new_client_socket.rxBufSize = 65536 ∧
    TcpVirtualInterface.new_client_socket.txBufSize = 65536 ∧
    ¬ claimClientBuffersMtuSized 1420 := by
  refine ⟨rfl, rfl, ?_⟩
  intro h
  exact absurd h.1 (by decide)

/-- C7 amended: on `ClientConnectionInitiated`, the handler creates a
client socket whose RX and TX buffers are the fixed `MAX_PACKET` = 65536
bytes (not MTU-sized), adds it to the stack, connects it from
`(source_peer_ip, vport.num)` to the forward destination, registers an
empty send queue for the port, and forces an immediate next poll. -/
theorem C7_initiated_creates_connected_socket (spi : IpAddr)
    (pf : PortForwardConfig) (vp : VirtualPort) (st st₁ : TcpIfaceState)
    (hok : tcpHandleInitiated spi pf vp st = Except.ok st₁) :
    alistLookup st₁.sockets st.nextHandle = some
      { rxBufSize := MAX_PACKET, txBufSize := MAX_PACKET, txFree := MAX_PACKET,
        rxPending := [], state := TcpState.SynSent,
        localEndpoint := some (spi, vp.num),
        remoteEndpoint := some (pf.destination.ip, pf.destination.port) } ∧
    alistLookup st₁.portClientHandleMap vp = some st.nextHandle ∧
    alistLookup st₁.sendQueue vp = some [] ∧
    st₁.nextPoll = none := by
  rw [tcpHandleInitiated_ok hok]
  exact ⟨alistLookup_alistInsert_self _ _ _,
    alistLookup_alistInsert_self _ _ _,
    alistLookup_alistInsert_self _ _ _, rfl⟩

/-- C7 witness: the handler evaluated on a concrete forward and port. -/
theorem C7_initiated_creates_connected_socket_witness :
    sampleInitiatedResult.nextPoll = none ∧
    alistLookup sampleInitiatedResult.sendQueue sampleVp = some [] ∧
    alistLookup sampleInitiatedResult.portClientHandleMap sampleVp = some 0 :=
  ⟨(C7_initiated_creates_connected_socket (IpAddr.v4 10) samplePf sampleVp
      emptyTcpState sampleInitiatedResult rfl).2.2.2,
   (C7_initiated_creates_connected_socket (IpAddr.v4 10) samplePf sampleVp
      emptyTcpState sampleInitiatedResult rfl).2.2.1,
   (C7_initiated_creates_connected_socket (IpAddr.v4 10) samplePf sampleVp
      emptyTcpState sampleInitiatedResult rfl).2.1⟩

/-- C8 counterexample: with an IPv6 source peer IP, the installed address
has mask length 32, not 128, so the claim fails. -/
theorem C8_counterexample_v6_address_mask :
    ({ address := IpAddr.v6 1, maskLen := 32 } : IpCidr) ∈
      TcpVirtualInterface.addresses (IpAddr.v6 1) [] ∧
    ¬ claimAddressesHostMask := by
  constructor
  · decide
  · intro h
    have h2 := h (IpAddr.v6 1) []
      { address := IpAddr.v6 1, maskLen := 32 } (Or.inl (by decide))
    simp [claimHostMask] at h2

/-- C8 amended: every address installed on either virtual interface (the
source peer IP and each forward destination IP) is installed with mask
length 32, for IPv4 and IPv6 addresses alike; in particular the source
peer IP always appears among the installed addresses. -/
theorem C8_installed_addresses_mask_32 (spi : IpAddr)
    (pfs : List PortForwardConfig) (cidr : IpCidr)
    (hmem : cidr ∈ TcpVirtualInterface.addresses spi pfs ∨
            cidr ∈ UdpVirtualInterface.addresses spi pfs) :
    cidr.maskLen = 32 ∧
    ({ address := spi, maskLen := 32 } : IpCidr) ∈
      TcpVirtualInterface.addresses spi pfs ∧
    ({ address := spi, maskLen := 32 } : IpCidr) ∈
      UdpVirtualInterface.addresses spi pfs := by
  refine ⟨?_, ?_, ?_⟩
  · rcases hmem with hmem | hmem <;>
    · rcases List.mem_map.mp hmem with ⟨a, _, heq⟩
      rw [← heq]
  · exact List.mem_map.mpr ⟨spi, List.mem_dedup.mpr (List.mem_cons_self _ _), rfl⟩
  · exact List.mem_map.mpr ⟨spi, List.mem_dedup.mpr (List.mem_cons_self _ _), rfl⟩

/-- C8 witness: evaluated on a concrete IPv4 source peer IP. -/
theorem C8_installed_addresses_mask_32_witness :
    ({ address := IpAddr.v4 7, maskLen := 32 } : IpCidr).maskLen = 32 ∧
    ({ address := IpAddr.v4 7, maskLen := 32 } : IpCidr) ∈
      TcpVirtualInterface.addresses (IpAddr.v4 7) [] ∧
    ({ address := IpAddr.v4 7, maskLen := 32 } : IpCidr) ∈
      UdpVirtualInterface.addresses (IpAddr.v4 7) [] :=
  C8_installed_addresses_mask_32 (IpAddr.v4 7) []
    { address := IpAddr.v4 7, maskLen := 32 } (Or.inl (by decide))

/-- C9: on a UDP `LocalData` event, the pair `(forward.destination, bytes)`
is appended to the port's send queue; when no client socket is registered
for the port, a fresh socket bound to `(source_peer_ip, vport)` is created
and registered under a fresh handle, and otherwise the socket set and the
map are untouched; in both cases the next poll is forced to run
immediately. The hypothesis relates socket registration and queue
registration, which the loop keeps in sync. -/
theorem C9_udp_local_data_enqueues_and_registers (spi : IpAddr)
    (pf : PortForwardConfig) (vp : VirtualPort) (data : List Nat)
    (st st₁ : UdpIfaceState)
    (hsync : ∀ v, v ∈ alistKeys st.portClientHandleMap ↔
      alistContains st.sendQueue v = true)
    (hok : udpHandleLocalData spi pf vp data st = Except.ok st₁) :
    alistLookup st₁.sendQueue vp =
      some ((alistLookup st.sendQueue vp).getD [] ++ [(pf.destination, data)]) ∧
    st₁.nextPoll = none ∧ st₁.wake = true ∧
    (vp ∉ alistKeys st.portClientHandleMap →
      alistLookup st₁.portClientHandleMap vp = some st.nextHandle ∧
      alistLookup st₁.sockets st.nextHandle = some
        { metaSlots := 10, rxBufSize := MAX_PACKET, txBufSize := MAX_PACKET,
          boundLocal := some (spi, vp.num) }) ∧
    (vp ∈ alistKeys st.portClientHandleMap →
      st₁.portClientHandleMap = st.portClientHandleMap ∧
      st₁.sockets = st.sockets) := by
  unfold udpHandleLocalData at hok
  cases hc : alistContains st.sendQueue vp with
  | true =>
      rw [hc] at hok
      simp only [if_true] at hok
      injection hok with hok
      rw [← hok]
      have hlook : (alistLookup st.sendQueue vp).isSome := by
        rw [← alistContains_eq_isSome]
        exact hc
      rcases Option.isSome_iff_exists.mp hlook with ⟨q, hq⟩
      refine ⟨?_, rfl, rfl, ?_, ?_⟩
      · rw [show ({ st with
            sendQueue := alistUpdate st.sendQueue vp
              (fun q => q ++ [(pf.destination, data)]),
            nextPoll := none, wake := true } : UdpIfaceState).sendQueue =
            alistUpdate st.sendQueue vp
              (fun q => q ++ [(pf.destination, data)]) from rfl,
          alistLookup_alistUpdate_self, hq]
        rfl
      · intro hn
        exact absurd ((hsync vp).mpr hc) hn
      · intro _
        exact ⟨rfl, rfl⟩
  | false =>
      rw [hc] at hok
      simp only [if_false] at hok
      unfold UdpVirtualInterface.new_client_socket at hok
      by_cases hz : vp.num = 0
      · rw [if_pos hz] at hok
        cases hok
      · rw [if_neg hz] at hok
        injection hok with hok
        rw [← hok]
        have hqnone : alistLookup st.sendQueue vp = none := by
          rcases hl : alistLookup st.sendQueue vp with _ | q
          · rfl
          · have := alistContains_eq_isSome st.sendQueue vp
            rw [hl, hc] at this
            cases this
        refine ⟨?_, rfl, rfl, ?_, ?_⟩
        · rw [show ({ st with
              sockets := alistInsert st.sockets st.nextHandle
                { metaSlots := 10, rxBufSize := MAX_PACKET,
                  txBufSize := MAX_PACKET,
                  boundLocal := some (spi, vp.num) },
              nextHandle := st.nextHandle + 1,
              portClientHandleMap :=
                alistInsert st.portClientHandleMap vp st.nextHandle,
              sendQueue := alistInsert st.sendQueue vp [(pf.destination, data)],
              nextPoll := none, wake := true } : UdpIfaceState).sendQueue =
              alistInsert st.sendQueue vp [(pf.destination, data)] from rfl,
            alistLookup_alistInsert_self, hqnone]
          rfl
        · intro _
          exact ⟨alistLookup_alistInsert_self _ _ _,
            alistLookup_alistInsert_self _ _ _⟩
        · intro hin
          have := (hsync vp).mp hin
          rw [hc] at this
          cases this

/-- C9 witness: the handler evaluated on a concrete UDP forward, port and
payload over the empty state. -/
theorem C9_udp_local_data_enqueues_and_registers_witness :
    alistLookup sampleUdpResult.sendQueue sampleUdpVp =
      some [(sampleUdpPf.destination, [1, 2, 3])] ∧
    sampleUdpResult.wake = true :=
  ⟨(C9_udp_local_data_enqueues_and_registers (IpAddr.v4 10) sampleUdpPf
      sampleUdpVp [1, 2, 3] emptyUdpState sampleUdpResult
      (by intro v; simp [emptyUdpState, alistKeys, alistContains]) rfl).1,
   (C9_udp_local_data_enqueues_and_registers (IpAddr.v4 10) sampleUdpPf
      sampleUdpVp [1, 2, 3] emptyUdpState sampleUdpResult
      (by intro v; simp [emptyUdpState, alistKeys, alistContains]) rfl).2.2.1⟩

end Onetun
